import Mathlib

/-!
Shallow embedding of `src/sync-github-commits.ts` (github-notion-sync).

Pure helper functions of the script become Lean functions; the two external
APIs (the commit host and the destination database) are modelled as explicit
oracles passed in, and the sync loop is a recursive function that also
produces a trace of observable events (API requests, row writes, delays).
Machine integers of the script are JavaScript numbers used only as small
non-negative counters, so they are modelled as `Nat` (and `Int` where a
sign can occur, in `parseIntJS`).  Fallible operations return `Option`.
-/

namespace GhSync

/-- `listStartsWith hay needle` is true when `needle` is a prefix of `hay`
(character lists). Used to model JavaScript `String.prototype.includes`. -/
def listStartsWith : List Char → List Char → Bool
  | _, [] => true
  | [], _ :: _ => false
  | a :: as, b :: bs => a == b && listStartsWith as bs

/-- Substring containment on character lists: some suffix of `hay` starts
with `needle`.  Models JavaScript `hay.includes(needle)`. -/
def listHasInfix : List Char → List Char → Bool
  | [], needle => needle.isEmpty
  | a :: t, needle => listStartsWith (a :: t) needle || listHasInfix t needle

/-- JavaScript `hay.includes(needle)` for strings. -/
def includes (hay needle : String) : Bool :=
  listHasInfix hay.data needle.data

/-- JavaScript `s.toLowerCase()`.  `Char.toLower` lowers the ASCII range,
which covers every keyword the script matches against. -/
def toLowerCase (s : String) : String :=
  String.mk (s.data.map Char.toLower)

/-- JavaScript `s.substring(0, n)`: the first `n` characters of `s`
(all of `s` when it is shorter). -/
def jsSubstring (s : String) (n : Nat) : String :=
  String.mk (s.data.take n)

/-! ## Cache store (`SyncCache`, lines 22-85 of the source) -/

/-- Maximum number of SHAs kept in the cache (source line 24). -/
def MAX_CACHE_SIZE : Nat := 1000

/-- The persisted cache record (`interface SyncCache`, source lines 27-31). -/
structure SyncCache where
  processedSHAs : List String
  lastSync : String
  totalProcessed : Nat
deriving Repr, DecidableEq

/-- The raw JSON object read from the cache file: each field may be absent.
Models the defensive field-by-field access `data.processedSHAs || []` etc. -/
structure RawCacheData where
  rawProcessedSHAs : Option (List String)
  rawLastSync : Option String
  rawTotalProcessed : Option Nat
deriving Repr, DecidableEq

/-- `loadCache` (source lines 40-59).  The file system and JSON parser are
modelled by the argument: `none` = file missing, `some none` = the read or
parse threw (caught at line 50), `some (some data)` = parsed object.
JavaScript falsiness of `data.lastSync || now`: the empty string also falls
back to `now`; `data.totalProcessed || 0` maps `0` to `0` either way.
The function is total: no input makes it raise. -/
def loadCache (file : Option (Option RawCacheData)) (now : String) : SyncCache :=
  match file with
  | some (some data) =>
    { processedSHAs := data.rawProcessedSHAs.getD []
      lastSync :=
        match data.rawLastSync with
        | some s => if s = "" then now else s
        | none => now
      totalProcessed := data.rawTotalProcessed.getD 0 }
  | _ => { processedSHAs := [], lastSync := now, totalProcessed := 0 }

/-- `cleanupCache` (source lines 74-81): when the SHA list exceeds
`MAX_CACHE_SIZE`, keep the last `MAX_CACHE_SIZE` entries
(`slice(-MAX_CACHE_SIZE)` = drop all but the final `MAX_CACHE_SIZE`). -/
def cleanupCache (cache : SyncCache) : SyncCache :=
  if cache.processedSHAs.length > MAX_CACHE_SIZE then
    { cache with
        processedSHAs :=
          cache.processedSHAs.drop (cache.processedSHAs.length - MAX_CACHE_SIZE) }
  else cache

/-- `commitExistsInCache` (source lines 83-85): exact membership test. -/
def commitExistsInCache (sha : String) (cache : SyncCache) : Bool :=
  cache.processedSHAs.contains sha

/-! ## Classifiers (source lines 102-156) -/

/-- `detectFeatureArea` (source lines 102-132), translated clause by clause.
The source gives `files` the default value `[]`; callers here always pass
the list explicitly. -/
def detectFeatureArea (message : String) (files : List String) : String :=
  let lowerMessage := toLowerCase message
  let fileStr := toLowerCase (String.intercalate " " files)
  if includes lowerMessage "chat" || includes fileStr "chat-interface" || includes fileStr "chat.tsx" then
    "Chat Interface"
  else if includes lowerMessage "bigquery" || includes lowerMessage "analytics" || includes fileStr "bigquery" then
    "BigQuery Integration"
  else if includes lowerMessage "claude" || includes lowerMessage "ai" || includes lowerMessage "anthropic" then
    "AI/Claude API"
  else if includes lowerMessage "supabase" || includes lowerMessage "database" || includes lowerMessage "auth" then
    "Database/Supabase"
  else if includes lowerMessage "ui" || includes lowerMessage "style" || includes lowerMessage "css" || includes fileStr ".css" then
    "UI/UX"
  else if includes lowerMessage "test" || includes fileStr "test" || includes fileStr ".spec." then
    "Testing"
  else if includes lowerMessage "deploy" || includes lowerMessage "build" || includes fileStr "vercel" || includes fileStr "dockerfile" then
    "Deployment"
  else if includes lowerMessage "fix" || includes lowerMessage "bug" then
    "Bug Fix"
  else
    "Chat Interface"

/-- `detectImpactLevel` (source lines 135-156).  The script's `additions`
and `deletions` are non-negative counters, modelled as `Nat`. -/
def detectImpactLevel (message : String) (additions deletions : Nat) : String :=
  let lowerMessage := toLowerCase message
  let totalChanges := additions + deletions
  if includes lowerMessage "feat:" || includes lowerMessage "feature:" || decide (totalChanges > 200) then
    "Major Feature"
  else if includes lowerMessage "fix:" || includes lowerMessage "bug" then
    "Bug Fix"
  else if includes lowerMessage "refactor:" || includes lowerMessage "cleanup" then
    "Refactor"
  else if includes lowerMessage "docs:" || includes lowerMessage "readme" then
    "Documentation"
  else if decide (totalChanges > 50) then
    "Minor Feature"
  else
    "Minor Feature"

/-- Generic first-match-wins evaluation of an ordered rule list with a
default label: the label of the first rule whose predicate holds. -/
def firstMatchLabel {α : Type} (rules : List (α × String)) (dflt : String)
    (test : α → Bool) : String :=
  match rules with
  | [] => dflt
  | (p, l) :: rest => if test p then l else firstMatchLabel rest dflt test

/-- The ordered rule list of `detectFeatureArea`: each predicate takes the
lower-cased message and the lower-cased space-joined file string. -/
def featureRules : List ((String → String → Bool) × String) :=
  [ (fun lm fs => includes lm "chat" || includes fs "chat-interface" || includes fs "chat.tsx", "Chat Interface"),
    (fun lm fs => includes lm "bigquery" || includes lm "analytics" || includes fs "bigquery", "BigQuery Integration"),
    (fun lm _ => includes lm "claude" || includes lm "ai" || includes lm "anthropic", "AI/Claude API"),
    (fun lm _ => includes lm "supabase" || includes lm "database" || includes lm "auth", "Database/Supabase"),
    (fun lm fs => includes lm "ui" || includes lm "style" || includes lm "css" || includes fs ".css", "UI/UX"),
    (fun lm fs => includes lm "test" || includes fs "test" || includes fs ".spec.", "Testing"),
    (fun lm fs => includes lm "deploy" || includes lm "build" || includes fs "vercel" || includes fs "dockerfile", "Deployment"),
    (fun lm _ => includes lm "fix" || includes lm "bug", "Bug Fix") ]

/-- The ordered rule list of `detectImpactLevel`: each predicate takes the
lower-cased message and the total change count. -/
def impactRules : List ((String → Nat → Bool) × String) :=
  [ (fun lm tc => includes lm "feat:" || includes lm "feature:" || decide (tc > 200), "Major Feature"),
    (fun lm _ => includes lm "fix:" || includes lm "bug", "Bug Fix"),
    (fun lm _ => includes lm "refactor:" || includes lm "cleanup", "Refactor"),
    (fun lm _ => includes lm "docs:" || includes lm "readme", "Documentation"),
    (fun _ tc => decide (tc > 50), "Minor Feature") ]

/-! ## Remote detail fetcher and row writer (source lines 87-270) -/

/-- The `commit.commit.author` object of the host API response. -/
structure ApiCommitAuthor where
  authorName : Option String
  authorDate : Option String
deriving Repr, DecidableEq

/-- The `commit.stats` object of the host API response.  The script reads
each field with a `|| 0` fallback; a present-but-zero field and a missing
field both yield `0`, so the fields are modelled as plain `Nat` and the
whole object as optional. -/
structure ApiCommitStats where
  additions : Nat
  deletions : Nat
  total : Nat
deriving Repr, DecidableEq

/-- The relevant part of the host API response for one commit
(`octokit.rest.repos.getCommit`): message, optional author block, optional
stats block, optional changed-file list (file names), and `html_url`. -/
structure ApiCommitDetail where
  message : String
  author : Option ApiCommitAuthor
  stats : Option ApiCommitStats
  files : Option (List String)
  html_url : String
deriving Repr, DecidableEq

/-- `interface CommitData` (source lines 87-99). -/
structure CommitData where
  sha : String
  message : String
  author : String
  date : String
  url : String
  stats : Option ApiCommitStats
  files : Option Nat
deriving Repr, DecidableEq

/-- The record built by `getCommitDetails` from a successful API response
(source lines 170-182).  Note line 171: the `sha` field stores
`sha.substring(0, 7)`, the truncated form, not the full identifier. -/
def commitRecordOf (sha : String) (commit : ApiCommitDetail) (now : String) : CommitData :=
  { sha := jsSubstring sha 7
    message := commit.message
    author := (commit.author.bind ApiCommitAuthor.authorName).getD "Unknown"
    date := (commit.author.bind ApiCommitAuthor.authorDate).getD now
    url := commit.html_url
    stats := some
      { additions := (commit.stats.map ApiCommitStats.additions).getD 0
        deletions := (commit.stats.map ApiCommitStats.deletions).getD 0
        total := (commit.stats.map ApiCommitStats.total).getD 0 }
    files := some ((commit.files.getD []).length) }

/-- `getCommitDetails` (source lines 162-187).  The API call is modelled by
`apiResult`: `none` = the call threw (caught at line 183, the function
returns `null`); `some commit` = the response data.  `now` models
`new Date().toISOString()` for the date fallback. -/
def getCommitDetails (sha : String) (apiResult : Option ApiCommitDetail) (now : String) :
    Option CommitData :=
  match apiResult with
  | none => none
  | some commit => some (commitRecordOf sha commit now)

/-- `getCommitFiles` (source lines 258-270): file names of the commit, the
empty list when the call throws or the response has no file list. -/
def getCommitFiles (apiResult : Option (List String)) : List String :=
  apiResult.getD []

/-- The destination-database row submitted by `createNotionCommit`
(source lines 200-247), field for field. -/
structure NotionRow where
  commitMessage : String
  githubSHA : String
  githubURL : String
  author : String
  commitDate : String
  repository : String
  featureArea : String
  impactLevel : String
  linesAdded : Nat
  linesDeleted : Nat
  filesChanged : Nat
  status : String
  branch : String
deriving Repr, DecidableEq

/-- Models `new Date(d).toISOString().split('T')[0]` for date strings that
are already in ISO-8601 UTC form (the shapes the host API returns): the
part before the first `T`. -/
def toISODatePart (d : String) : String :=
  (d.splitOn "T").headD d

/-- The row built by `createNotionCommit` from a commit record and the
fetched file list (source lines 192-246). -/
def buildNotionRow (commitData : CommitData) (files : List String) : NotionRow :=
  { commitMessage := commitData.message
    githubSHA := commitData.sha
    githubURL := commitData.url
    author := commitData.author
    commitDate := toISODatePart commitData.date
    repository := "CommunityGPT-MVP"
    featureArea := detectFeatureArea commitData.message files
    impactLevel := detectImpactLevel commitData.message
      ((commitData.stats.map ApiCommitStats.additions).getD 0)
      ((commitData.stats.map ApiCommitStats.deletions).getD 0)
    linesAdded := (commitData.stats.map ApiCommitStats.additions).getD 0
    linesDeleted := (commitData.stats.map ApiCommitStats.deletions).getD 0
    filesChanged := commitData.files.getD 0
    status := "Committed"
    branch := "main" }

/-- The two external APIs and the clock, as oracles.  `details sha` is what
`octokit...getCommit` returns inside `getCommitDetails` when called with
`sha`; `filePaths sha` is what the same endpoint returns inside
`getCommitFiles`; `writeOk row` is whether `notion.pages.create` succeeds
for that payload (`false` = it threw, caught at line 251); `now` is the
current ISO timestamp. -/
structure Env where
  details : String → Option ApiCommitDetail
  filePaths : String → Option (List String)
  writeOk : NotionRow → Bool
  now : String

/-- `createNotionCommit` (source lines 190-255): fetch the file list keyed
by `commitData.sha` (the truncated form, line 192), build the row, attempt
the write.  Returns the attempted row and the success flag the source
returns. -/
def createNotionCommit (env : Env) (commitData : CommitData) : NotionRow × Bool :=
  let files := getCommitFiles (env.filePaths commitData.sha)
  let row := buildNotionRow commitData files
  (row, env.writeOk row)

/-! ## Sync orchestrator (source lines 273-383) -/

/-- One entry of the commit-list API response; the loop reads only `sha`. -/
structure CommitSummary where
  sha : String
deriving Repr, DecidableEq

/-- Observable events of a sync run, in order: a commit-list request
(`sinceDaysAgo = none` for the unfiltered probe) with its page size, a
per-commit detail fetch, a per-commit file-list fetch, a row-write attempt,
the fixed rate-limit delay (line 370), and a cache-hit skip. -/
inductive Event where
  | listRequest (sinceDaysAgo : Option Nat) (perPage : Nat)
  | detailFetch (sha : String)
  | filesFetch (sha : String)
  | rowWrite (row : NotionRow) (ok : Bool)
  | delay
  | skip (sha : String)
deriving Repr, DecidableEq

/-- The `for (const commit of commits)` loop (source lines 345-371), with
the mutable locals threaded explicitly and the observable calls recorded in
`events`.  A cache hit appends only a skip event and recurses without the
delay (the `continue` at line 350 jumps past line 370); a failed detail
fetch appends only the fetch event (the `continue` at line 357); otherwise
the iteration records the detail fetch, the file fetch, the write attempt
and the unconditional delay, updating the cache and counter on success. -/
def syncLoop (env : Env) : List CommitSummary → SyncCache → Nat → Nat → List Event →
    SyncCache × Nat × Nat × List Event
  | [], cache, processedCount, skippedCount, events =>
    (cache, processedCount, skippedCount, events)
  | c :: rest, cache, processedCount, skippedCount, events =>
    if commitExistsInCache c.sha cache then
      syncLoop env rest cache processedCount (skippedCount + 1) (events ++ [Event.skip c.sha])
    else
      match getCommitDetails c.sha (env.details c.sha) env.now with
      | none =>
        syncLoop env rest cache processedCount skippedCount (events ++ [Event.detailFetch c.sha])
      | some commitData =>
        let attempt := createNotionCommit env commitData
        let cache2 :=
          if attempt.2 then
            { cache with
                processedSHAs := cache.processedSHAs ++ [c.sha]
                totalProcessed := cache.totalProcessed + 1 }
          else cache
        let processed2 := if attempt.2 then processedCount + 1 else processedCount
        syncLoop env rest cache2 processed2 skippedCount
          (events ++ [Event.detailFetch c.sha, Event.filesFetch commitData.sha,
            Event.rowWrite attempt.1 attempt.2, Event.delay])

/-- The outcome of one `syncRecentCommits` run.  `savedCache = none` models
the early `return` at line 338, which reaches neither `cleanupCache` nor
`saveCache`; otherwise it is the trimmed cache written to disk with the
refreshed `lastSync`. -/
structure SyncResult where
  processedCount : Nat
  skippedCount : Nat
  events : List Event
  savedCache : Option SyncCache
deriving Repr, DecidableEq

/-- The tail of `syncRecentCommits` after a non-empty commit list was
chosen: run the loop, trim, stamp `lastSync`, save (lines 342-379). -/
def finishSync (env : Env) (commits : List CommitSummary) (cache : SyncCache)
    (events : List Event) : SyncResult :=
  let r := syncLoop env commits cache 0 0 events
  { processedCount := r.2.1
    skippedCount := r.2.2.1
    events := r.2.2.2
    savedCache := some { cleanupCache r.1 with lastSync := env.now } }

/-- `syncRecentCommits` (source lines 273-383).  The three commit-list API
responses are inputs: `probe` for the unfiltered 10-per-page connectivity
probe (line 291, result unused), `primary` for the `since = now - days`
window (line 304), `fallback30` for the fixed 30-day window requested only
when `primary` is empty (line 321).  The single `env.now` stands for all
`new Date()` reads of the run. -/
def syncRecentCommits (days : Nat) (env : Env) (cacheFile : Option (Option RawCacheData))
    (probe primary fallback30 : List CommitSummary) : SyncResult :=
  let cache := loadCache cacheFile env.now
  let events0 := [Event.listRequest none 10, Event.listRequest (some days) 50]
  if primary.isEmpty then
    let events1 := events0 ++ [Event.listRequest (some 30) 50]
    if fallback30.isEmpty then
      { processedCount := 0, skippedCount := 0, events := events1, savedCache := none }
    else
      finishSync env fallback30 cache events1
  else
    finishSync env primary cache events0

/-! ## CLI surface (source lines 386-431) -/

/-- JavaScript `parseInt` whitespace: the common StrWhiteSpace characters. -/
def isJsWhitespace (c : Char) : Bool :=
  c = ' ' || c = '\t' || c = '\n' || c = '\r' || c = Char.ofNat 11 || c = Char.ofNat 12

/-- Value of one digit character, hex digits included, computed from the
code point (48-57 are `0`-`9`, 97-102 are `a`-`f`, 65-70 are `A`-`F`). -/
def digitVal (c : Char) : Option Nat :=
  let n := c.toNat
  if 48 ≤ n ∧ n ≤ 57 then some (n - 48)
  else if 97 ≤ n ∧ n ≤ 102 then some (n - 87)
  else if 65 ≤ n ∧ n ≤ 70 then some (n - 55)
  else none

/-- The longest prefix of digits valid in `base`, as digit values. -/
def digitsPrefix (base : Nat) : List Char → List Nat
  | [] => []
  | c :: t =>
    match digitVal c with
    | some v => if v < base then v :: digitsPrefix base t else []
    | none => []

/-- JavaScript `parseInt(s)` with no radix argument: skip leading
whitespace, read an optional sign, switch to base 16 after a `0x`/`0X`
prefix, then take the longest digit prefix (trailing characters are
ignored); `none` models `NaN` (no digits). -/
def parseIntJS (s : String) : Option Int :=
  let cs0 := s.data.dropWhile isJsWhitespace
  let sign : Int := match cs0 with
    | '-' :: _ => -1
    | _ => 1
  let cs1 := match cs0 with
    | '-' :: t => t
    | '+' :: t => t
    | _ => cs0
  let base : Nat := match cs1 with
    | '0' :: 'x' :: _ => 16
    | '0' :: 'X' :: _ => 16
    | _ => 10
  let cs2 := match cs1 with
    | '0' :: 'x' :: t => t
    | '0' :: 'X' :: t => t
    | _ => cs1
  let ds := digitsPrefix base cs2
  if ds.isEmpty then none
  else some (sign * Int.ofNat (ds.foldl (fun a v => a * base + v) 0))

/-- What `main` (source lines 386-431) decides before any sync work:
clear-cache exit (status 0), invalid-days exit (status 1, line 408),
missing-tokens exit (status 1, line 417), or running
`syncRecentCommits days`. -/
inductive MainOutcome where
  | clearCacheExit
  | invalidDaysExit
  | missingTokensExit
  | runSync (days : Int)
deriving Repr, DecidableEq

/-- JavaScript truthiness of an optional environment string: present and
non-empty. -/
def truthyStr : Option String → Bool
  | some s => !(s == "")
  | none => false

/-- The control flow of `main` (source lines 386-431) up to the
`syncRecentCommits` call, over the argument list (`process.argv.slice(2)`)
and the two token variables.  Line 402: `args[0] ? parseInt(args[0]) : 7`,
so a missing or empty (falsy) first argument defaults to 7; line 406 exits
when the parse is `NaN` or the value is outside `[1, 365]`. -/
def mainDecision (args : List String) (notionToken githubToken : Option String) :
    MainOutcome :=
  if args.contains "--clear-cache" then MainOutcome.clearCacheExit
  else
    let daysOpt : Option Int :=
      match args.head? with
      | some a => if a = "" then some 7 else parseIntJS a
      | none => some 7
    match daysOpt with
    | none => MainOutcome.invalidDaysExit
    | some d =>
      if d < 1 ∨ d > 365 then MainOutcome.invalidDaysExit
      else if !truthyStr notionToken || !truthyStr githubToken then
        MainOutcome.missingTokensExit
      else MainOutcome.runSync d

/-! ## Concrete instances used to exercise the model on closed inputs -/

/-- A fixed host-API detail response. -/
def demoApi : ApiCommitDetail :=
  { message := "feat: x", author := none, stats := none, files := none, html_url := "u" }

/-- An oracle where every call succeeds and every write is accepted. -/
def demoEnv : Env :=
  { details := fun _ => some demoApi
    filePaths := fun _ => some []
    writeOk := fun _ => true
    now := "2026-01-01T00:00:00.000Z" }

/-- An oracle whose per-commit detail fetch always fails. -/
def demoEnvNoDetail : Env :=
  { demoEnv with details := fun _ => none }

/-- An oracle whose destination-database writes always fail. -/
def demoEnvNoWrite : Env :=
  { demoEnv with writeOk := fun _ => false }

/-- A small cache holding one processed identifier. -/
def demoCache : SyncCache :=
  { processedSHAs := ["aaaa1"], lastSync := "2025-12-31T00:00:00.000Z", totalProcessed := 1 }

/-- Three distinct fresh commit summaries. -/
def demoCommits : List CommitSummary :=
  [⟨"aaaa1"⟩, ⟨"bbbb2"⟩, ⟨"cccc3"⟩]

/-- A full 40-character commit identifier. -/
def demoFullSha : String :=
  "0123456789abcdef0123456789abcdef01234567"

/-! ## Helper lemmas about the sync loop -/

/-- Unfolding the loop on a cache hit: one skip event, skip counter up by
one, no other change, no delay. -/
lemma syncLoop_cons_hit (env : Env) (c : CommitSummary) (rest : List CommitSummary)
    (cache : SyncCache) (p s : Nat) (evs : List Event)
    (h : commitExistsInCache c.sha cache = true) :
    syncLoop env (c :: rest) cache p s evs =
      syncLoop env rest cache p (s + 1) (evs ++ [Event.skip c.sha]) := by
  simp [syncLoop, h]

/-- Unfolding the loop when the detail fetch fails: one fetch event, no
counter or cache change, no delay. -/
lemma syncLoop_cons_nodetail (env : Env) (c : CommitSummary) (rest : List CommitSummary)
    (cache : SyncCache) (p s : Nat) (evs : List Event)
    (h : commitExistsInCache c.sha cache = false)
    (hd : env.details c.sha = none) :
    syncLoop env (c :: rest) cache p s evs =
      syncLoop env rest cache p s (evs ++ [Event.detailFetch c.sha]) := by
  simp [syncLoop, h, getCommitDetails, hd]

/-- Unfolding the loop when the detail fetch succeeds: the write is
attempted and the delay always follows; cache and counter change only when
the write succeeded. -/
lemma syncLoop_cons_detail (env : Env) (c : CommitSummary) (rest : List CommitSummary)
    (cache : SyncCache) (p s : Nat) (evs : List Event)
    (h : commitExistsInCache c.sha cache = false)
    (a : ApiCommitDetail) (hd : env.details c.sha = some a) :
    syncLoop env (c :: rest) cache p s evs =
      syncLoop env rest
        (if (createNotionCommit env (commitRecordOf c.sha a env.now)).2 then
          { cache with
              processedSHAs := cache.processedSHAs ++ [c.sha]
              totalProcessed := cache.totalProcessed + 1 }
         else cache)
        (if (createNotionCommit env (commitRecordOf c.sha a env.now)).2 then p + 1 else p) s
        (evs ++ [Event.detailFetch c.sha,
          Event.filesFetch (commitRecordOf c.sha a env.now).sha,
          Event.rowWrite (createNotionCommit env (commitRecordOf c.sha a env.now)).1
            (createNotionCommit env (commitRecordOf c.sha a env.now)).2,
          Event.delay]) := by
  simp [syncLoop, h, getCommitDetails, hd]

/-- The loop only appends to the event list it is given. -/
lemma syncLoop_events_extend (env : Env) :
    ∀ (commits : List CommitSummary) (cache : SyncCache) (p s : Nat) (evs : List Event),
      ∃ tail, (syncLoop env commits cache p s evs).2.2.2 = evs ++ tail := by
  intro commits
  induction commits with
  | nil =>
    intro cache p s evs
    exact ⟨[], by simp [syncLoop]⟩
  | cons c rest ih =>
    intro cache p s evs
    by_cases h : commitExistsInCache c.sha cache
    · obtain ⟨t, ht⟩ := ih cache p (s + 1) (evs ++ [Event.skip c.sha])
      exact ⟨[Event.skip c.sha] ++ t,
        by rw [syncLoop_cons_hit env c rest cache p s evs h, ht]; simp⟩
    · rw [Bool.not_eq_true] at h
      cases hd : env.details c.sha with
      | none =>
        obtain ⟨t, ht⟩ := ih cache p s (evs ++ [Event.detailFetch c.sha])
        exact ⟨[Event.detailFetch c.sha] ++ t,
          by rw [syncLoop_cons_nodetail env c rest cache p s evs h hd, ht]; simp⟩
      | some a =>
        obtain ⟨t, ht⟩ := ih
          (if (createNotionCommit env (commitRecordOf c.sha a env.now)).2 then
            { cache with
                processedSHAs := cache.processedSHAs ++ [c.sha]
                totalProcessed := cache.totalProcessed + 1 }
           else cache)
          (if (createNotionCommit env (commitRecordOf c.sha a env.now)).2 then p + 1 else p) s
          (evs ++ [Event.detailFetch c.sha,
            Event.filesFetch (commitRecordOf c.sha a env.now).sha,
            Event.rowWrite (createNotionCommit env (commitRecordOf c.sha a env.now)).1
              (createNotionCommit env (commitRecordOf c.sha a env.now)).2,
            Event.delay])
        refine ⟨[Event.detailFetch c.sha,
            Event.filesFetch (commitRecordOf c.sha a env.now).sha,
            Event.rowWrite (createNotionCommit env (commitRecordOf c.sha a env.now)).1
              (createNotionCommit env (commitRecordOf c.sha a env.now)).2,
            Event.delay] ++ t, ?_⟩
        rw [syncLoop_cons_detail env c rest cache p s evs h a hd, ht]
        simp

/-- Running the loop over pairwise-distinct fresh commits whose detail
fetches and writes all succeed: every commit is appended to the cache, the
processed counter counts them all, and every iteration ends with the fixed
delay. -/
lemma syncLoop_all_fresh_success (env : Env) (dets : String → ApiCommitDetail) :
    ∀ (shas : List String) (cache : SyncCache) (p s : Nat) (evs : List Event),
    shas.Nodup →
    (∀ x ∈ shas, x ∉ cache.processedSHAs) →
    (∀ x ∈ shas, env.details x = some (dets x)) →
    (∀ x ∈ shas, (createNotionCommit env (commitRecordOf x (dets x) env.now)).2 = true) →
    syncLoop env (shas.map CommitSummary.mk) cache p s evs =
      (⟨cache.processedSHAs ++ shas, cache.lastSync, cache.totalProcessed + shas.length⟩,
       p + shas.length, s,
       evs ++ shas.flatMap (fun x => [Event.detailFetch x, Event.filesFetch (jsSubstring x 7),
         Event.rowWrite (createNotionCommit env (commitRecordOf x (dets x) env.now)).1 true,
         Event.delay])) := by
  intro shas
  induction shas with
  | nil =>
    intro cache p s evs _ _ _ _
    simp [syncLoop]
  | cons x xs ih =>
    intro cache p s evs hnd hfresh hdet hwrite
    have hx : commitExistsInCache x cache = false := by
      simp [commitExistsInCache, hfresh x (List.mem_cons_self x xs)]
    have hdx : env.details x = some (dets x) := hdet x (List.mem_cons_self x xs)
    have hwx := hwrite x (List.mem_cons_self x xs)
    rw [List.map_cons]
    rw [syncLoop_cons_detail env ⟨x⟩ (xs.map CommitSummary.mk) cache p s evs hx (dets x) hdx]
    rw [hwx]
    simp only [if_true]
    have hnd' := (List.nodup_cons.mp hnd).2
    have hxnot := (List.nodup_cons.mp hnd).1
    rw [ih { cache with
          processedSHAs := cache.processedSHAs ++ [x]
          totalProcessed := cache.totalProcessed + 1 } (p + 1) s _ hnd'
      (by
        intro y hy
        simp only [List.mem_append, List.mem_singleton]
        push_neg
        exact ⟨hfresh y (List.mem_cons_of_mem x hy), fun hyx => hxnot (hyx ▸ hy)⟩)
      (fun y hy => hdet y (List.mem_cons_of_mem x hy))
      (fun y hy => hwrite y (List.mem_cons_of_mem x hy))]
    simp [commitRecordOf, List.append_assoc]
    omega

/-- A first-match-wins rule chain falls through to its default when no rule
matches. -/
lemma firstMatchLabel_of_none {α : Type} (rules : List (α × String)) (dflt : String)
    (test : α → Bool) (h : ∀ r ∈ rules, test r.1 = false) :
    firstMatchLabel rules dflt test = dflt := by
  induction rules with
  | nil => rfl
  | cons r rest ih =>
    obtain ⟨p, l⟩ := r
    have hp := h (p, l) (List.mem_cons_self _ _)
    simp only at hp
    simp [firstMatchLabel, hp]
    exact ih (fun r hr => h r (List.mem_cons_of_mem _ hr))

/-! ## Claim theorems -/

/-- C1: when the sync loop reaches a commit whose identifier is already in
the cache's `processedSHAs`, the iteration performs no detail-fetch call
and no row-write call for it, increments the skip counter by exactly one,
leaves the cache and processed counter unchanged, and proceeds to the next
commit immediately without the fixed inter-iteration delay: the step adds
only a skip event to the trace. -/
theorem sync_skips_cached_commit (env : Env) (c : CommitSummary)
    (rest : List CommitSummary) (cache : SyncCache) (p s : Nat) (evs : List Event)
    (h : commitExistsInCache c.sha cache = true) :
    syncLoop env (c :: rest) cache p s evs =
      syncLoop env rest cache p (s + 1) (evs ++ [Event.skip c.sha]) := by
  simp [syncLoop, h]

/-- Witness for C1 at a concrete cached commit: the skip counter ends at 1,
the trace holds only the skip event, the cache is untouched. -/
theorem sync_skips_cached_commit_w :
    syncLoop demoEnv [⟨"aaaa1"⟩] demoCache 0 0 [] =
      (demoCache, 0, 1, [Event.skip "aaaa1"]) := by
  rw [sync_skips_cached_commit demoEnv ⟨"aaaa1"⟩ [] demoCache 0 0 [] (by decide)]
  rfl

/-- C3: `cleanupCache` (trim at `MAX_CACHE_SIZE` = 1000) leaves a SHA list
of length at most `MAX_CACHE_SIZE` that is exactly the most-recently
appended suffix of the pre-trim list, in order; the list is unchanged when
it was already within the limit, and `lastSync` and `totalProcessed` are
never modified. -/
theorem cleanupCache_trims_to_recent (cache : SyncCache) :
    MAX_CACHE_SIZE = 1000
    ∧ (cleanupCache cache).processedSHAs.length ≤ MAX_CACHE_SIZE
    ∧ (cleanupCache cache).processedSHAs =
        cache.processedSHAs.drop (cache.processedSHAs.length - MAX_CACHE_SIZE)
    ∧ (cleanupCache cache).processedSHAs <:+ cache.processedSHAs
    ∧ (cache.processedSHAs.length ≤ MAX_CACHE_SIZE →
        (cleanupCache cache).processedSHAs = cache.processedSHAs)
    ∧ (cleanupCache cache).lastSync = cache.lastSync
    ∧ (cleanupCache cache).totalProcessed = cache.totalProcessed := by
  refine ⟨rfl, ?_⟩
  by_cases h : cache.processedSHAs.length > MAX_CACHE_SIZE
  · have hs : (cleanupCache cache).processedSHAs =
        cache.processedSHAs.drop (cache.processedSHAs.length - MAX_CACHE_SIZE) := by
      simp [cleanupCache, h]
    refine ⟨?_, hs, ?_, ?_, ?_, ?_⟩
    · rw [hs, List.length_drop]
      omega
    · rw [hs]
      exact List.drop_suffix _ _
    · intro hle
      omega
    · simp [cleanupCache, h]
    · simp [cleanupCache, h]
  · have hid : cleanupCache cache = cache := by simp [cleanupCache, h]
    have hd0 : cache.processedSHAs.length - MAX_CACHE_SIZE = 0 := by omega
    rw [hid, hd0]
    exact ⟨by omega, by simp, List.suffix_refl _, fun _ => rfl, rfl, rfl⟩

/-- Witness for C3: trimming a small cache leaves it unchanged. -/
theorem cleanupCache_trims_to_recent_w :
    (cleanupCache demoCache).processedSHAs = demoCache.processedSHAs :=
  (cleanupCache_trims_to_recent demoCache).2.2.2.2.1 (by decide)

/-- C5: `detectFeatureArea` is a pure function (it is a Lean function of
its two arguments, so identical inputs give identical labels) that equals
first-match-wins evaluation of its ordered rule list over the lower-cased
message and the lower-cased space-joined file paths; `"fix chat bug"` with
no files hits rule 1 (`"Chat Interface"`), not rule 8 (`"Bug Fix"`); when
no rule matches the default is `"Chat Interface"`, the same label rule 1
carries. -/
theorem detectFeatureArea_first_match_wins :
    (∀ (message : String) (files : List String),
      detectFeatureArea message files =
        firstMatchLabel featureRules "Chat Interface"
          (fun p => p (toLowerCase message) (toLowerCase (String.intercalate " " files))))
    ∧ detectFeatureArea "fix chat bug" [] = "Chat Interface"
    ∧ (∀ (message : String) (files : List String),
        (∀ r ∈ featureRules,
          r.1 (toLowerCase message) (toLowerCase (String.intercalate " " files)) = false) →
        detectFeatureArea message files = "Chat Interface")
    ∧ featureRules.head?.map Prod.snd = some "Chat Interface" := by
  have hrules : ∀ (message : String) (files : List String),
      detectFeatureArea message files =
        firstMatchLabel featureRules "Chat Interface"
          (fun p => p (toLowerCase message) (toLowerCase (String.intercalate " " files))) := by
    intro message files
    rfl
  refine ⟨hrules, by decide, ?_, by decide⟩
  intro message files h
  rw [hrules message files]
  exact firstMatchLabel_of_none _ _ _ h

/-- Witness for C5 at a message matching no rule: the default label. -/
theorem detectFeatureArea_first_match_wins_w :
    detectFeatureArea "hello" [] = "Chat Interface" :=
  detectFeatureArea_first_match_wins.2.2.1 "hello" [] (by decide)

/-- C6: `detectImpactLevel` computes `totalChanges = additions + deletions`
and evaluates its ordered rule chain first-match-wins; the three documented
examples hold: a `feat:` prefix forces `"Major Feature"` despite a small
line count, 60 changed lines give `"Minor Feature"`, and the fallback is
`"Minor Feature"`. -/
theorem detectImpactLevel_first_match_wins :
    (∀ (message : String) (additions deletions : Nat),
      detectImpactLevel message additions deletions =
        firstMatchLabel impactRules "Minor Feature"
          (fun p => p (toLowerCase message) (additions + deletions)))
    ∧ detectImpactLevel "feat: add widget" 10 5 = "Major Feature"
    ∧ detectImpactLevel "update copy" 60 0 = "Minor Feature"
    ∧ detectImpactLevel "small tweak" 5 2 = "Minor Feature" :=
  ⟨fun _ _ _ => rfl, by decide, by decide, by decide⟩

/-- C8: `loadCache` on a missing cache file, and on a file whose contents
fail to parse, returns the empty cache with `lastSync = now` and
`totalProcessed = 0`.  It is a total Lean function, so no input makes it
raise: the condition is recoverable, never fatal. -/
theorem loadCache_missing_or_corrupt (now : String) :
    loadCache none now = { processedSHAs := [], lastSync := now, totalProcessed := 0 }
    ∧ loadCache (some none) now =
        { processedSHAs := [], lastSync := now, totalProcessed := 0 } :=
  ⟨rfl, rfl⟩

/-- C4: when the primary window yields zero commits the request is repeated
with the fixed 30-day window at page size 50, and when that fallback also
yields zero commits the run returns normally with no detail fetch and no
row write in its trace: only the three list requests occurred, the counters
are zero, and nothing is saved (the early return skips trim and save).
Termination is a plain return value, not an error. -/
theorem sync_zero_commit_fallback (days : Nat) (env : Env)
    (cacheFile : Option (Option RawCacheData)) (probe fallback30 : List CommitSummary) :
    Event.listRequest (some 30) 50 ∈
      (syncRecentCommits days env cacheFile probe [] fallback30).events
    ∧ (fallback30 = [] →
        syncRecentCommits days env cacheFile probe [] fallback30 =
          { processedCount := 0
            skippedCount := 0
            events := [Event.listRequest none 10, Event.listRequest (some days) 50,
              Event.listRequest (some 30) 50]
            savedCache := none }) := by
  constructor
  · cases fallback30 with
    | nil => simp [syncRecentCommits]
    | cons x xs =>
      obtain ⟨t, ht⟩ := syncLoop_events_extend env (x :: xs)
        (loadCache cacheFile env.now) 0 0
        ([Event.listRequest none 10, Event.listRequest (some days) 50] ++
          [Event.listRequest (some 30) 50])
      simp only [syncRecentCommits, List.isEmpty_nil, List.isEmpty_cons, if_true,
        Bool.false_eq_true, if_false, finishSync, ht]
      simp
  · intro h
    subst h
    rfl

/-- Witness for C4: with an all-success oracle, a run with empty primary
and non-empty fallback issues the 30-day request, and a run where both
windows are empty is the exact three-request no-op. -/
theorem sync_zero_commit_fallback_w :
    Event.listRequest (some 30) 50 ∈
      (syncRecentCommits 7 demoEnv none [] [] demoCommits).events
    ∧ syncRecentCommits 7 demoEnv none [] [] [] =
        { processedCount := 0
          skippedCount := 0
          events := [Event.listRequest none 10, Event.listRequest (some 7) 50,
            Event.listRequest (some 30) 50]
          savedCache := none } :=
  ⟨(sync_zero_commit_fallback 7 demoEnv none [] demoCommits).1,
   (sync_zero_commit_fallback 7 demoEnv none [] []).2 rfl⟩

/-- C7: per-commit failures are recovered locally.  If the detail fetch
fails, the loop continues with the next commit, the commit counted neither
as processed nor skipped, cache untouched, nothing retried (one fetch
event only).  If the detail fetch succeeds but the row write fails, the
processed counter is not incremented, the identifier is not appended to
`processedSHAs`, `totalProcessed` is not incremented, and the loop
continues; the write is not retried. -/
theorem sync_recovers_per_commit_failure (env : Env) (c : CommitSummary)
    (rest : List CommitSummary) (cache : SyncCache) (p s : Nat) (evs : List Event)
    (h : commitExistsInCache c.sha cache = false) :
    (env.details c.sha = none →
      syncLoop env (c :: rest) cache p s evs =
        syncLoop env rest cache p s (evs ++ [Event.detailFetch c.sha]))
    ∧ (∀ a, env.details c.sha = some a →
        (createNotionCommit env (commitRecordOf c.sha a env.now)).2 = false →
        syncLoop env (c :: rest) cache p s evs =
          syncLoop env rest cache p s
            (evs ++ [Event.detailFetch c.sha,
              Event.filesFetch (commitRecordOf c.sha a env.now).sha,
              Event.rowWrite (createNotionCommit env (commitRecordOf c.sha a env.now)).1 false,
              Event.delay])) := by
  constructor
  · intro hd
    exact syncLoop_cons_nodetail env c rest cache p s evs h hd
  · intro a hd hw
    rw [syncLoop_cons_detail env c rest cache p s evs h a hd, hw]
    simp

/-- Witness for C7 on concrete failing oracles: both failure modes leave
the cache and the processed counter untouched and the loop terminates
normally. -/
theorem sync_recovers_per_commit_failure_w :
    syncLoop demoEnvNoDetail [⟨"dddd4"⟩] demoCache 0 0 [] =
      (demoCache, 0, 0, [Event.detailFetch "dddd4"])
    ∧ syncLoop demoEnvNoWrite [⟨"dddd4"⟩] demoCache 0 0 [] =
        (demoCache, 0, 0, [Event.detailFetch "dddd4", Event.filesFetch "dddd4",
          Event.rowWrite
            (createNotionCommit demoEnvNoWrite
              (commitRecordOf "dddd4" demoApi demoEnvNoWrite.now)).1 false,
          Event.delay]) := by
  constructor
  · rw [(sync_recovers_per_commit_failure demoEnvNoDetail ⟨"dddd4"⟩ [] demoCache 0 0 []
      (by decide)).1 rfl]
    rfl
  · rw [(sync_recovers_per_commit_failure demoEnvNoWrite ⟨"dddd4"⟩ [] demoCache 0 0 []
      (by decide)).2 demoApi rfl rfl]
    rfl

/-- C2, counterexample: in the claim's scenario (primary window empty,
30-day fallback returns 3 uncached commits, every detail fetch and write
succeeds, so the processed counter ends at 3) the trace holds three fixed
delays, not two, and the final event of the run is a delay — the source
sleeps after every write attempt, the last one included (line 370 runs at
the end of every non-skipped iteration). -/
theorem sync_two_delay_claim_cx :
    (syncRecentCommits 7 demoEnv none [] [] demoCommits).processedCount = 3
    ∧ ((syncRecentCommits 7 demoEnv none [] [] demoCommits).events.countP
        (fun e => e == Event.delay)) = 3
    ∧ (syncRecentCommits 7 demoEnv none [] [] demoCommits).events.getLast? =
        some Event.delay := by
  refine ⟨by decide, by decide, by decide⟩

/-- C2, amended: primary window empty, fallback returns exactly 3 distinct
uncached commits, all detail fetches and row writes succeed.  Then the run
makes exactly 3 detail-fetch calls and 3 row-write attempts, the processed
counter ends at 3, the saved cache's `processedSHAs` grows by exactly those
3 identifiers in order (and `totalProcessed` by 3), and exactly THREE fixed
delays occur — one after each write attempt, including one after the last
write (not two delays only between consecutive writes, as originally
claimed). -/
theorem sync_three_fresh_commits
    (env : Env) (days : Nat) (cacheFile : Option (Option RawCacheData))
    (probe : List CommitSummary) (s1 s2 s3 : String) (a1 a2 a3 : ApiCommitDetail)
    (h1 : s1 ∉ (loadCache cacheFile env.now).processedSHAs)
    (h2 : s2 ∉ (loadCache cacheFile env.now).processedSHAs)
    (h3 : s3 ∉ (loadCache cacheFile env.now).processedSHAs)
    (h12 : s1 ≠ s2) (h13 : s1 ≠ s3) (h23 : s2 ≠ s3)
    (hd1 : env.details s1 = some a1) (hd2 : env.details s2 = some a2)
    (hd3 : env.details s3 = some a3)
    (hw1 : (createNotionCommit env (commitRecordOf s1 a1 env.now)).2 = true)
    (hw2 : (createNotionCommit env (commitRecordOf s2 a2 env.now)).2 = true)
    (hw3 : (createNotionCommit env (commitRecordOf s3 a3 env.now)).2 = true)
    (hlen : (loadCache cacheFile env.now).processedSHAs.length + 3 ≤ MAX_CACHE_SIZE) :
    syncRecentCommits days env cacheFile probe [] [⟨s1⟩, ⟨s2⟩, ⟨s3⟩] =
      { processedCount := 3
        skippedCount := 0
        events := [Event.listRequest none 10, Event.listRequest (some days) 50,
          Event.listRequest (some 30) 50,
          Event.detailFetch s1, Event.filesFetch (jsSubstring s1 7),
          Event.rowWrite (createNotionCommit env (commitRecordOf s1 a1 env.now)).1 true,
          Event.delay,
          Event.detailFetch s2, Event.filesFetch (jsSubstring s2 7),
          Event.rowWrite (createNotionCommit env (commitRecordOf s2 a2 env.now)).1 true,
          Event.delay,
          Event.detailFetch s3, Event.filesFetch (jsSubstring s3 7),
          Event.rowWrite (createNotionCommit env (commitRecordOf s3 a3 env.now)).1 true,
          Event.delay]
        savedCache := some
          { processedSHAs := (loadCache cacheFile env.now).processedSHAs ++ [s1, s2, s3]
            lastSync := env.now
            totalProcessed := (loadCache cacheFile env.now).totalProcessed + 3 } } := by
  have key := syncLoop_all_fresh_success env
    (fun x => if x = s2 then a2 else if x = s3 then a3 else a1)
    [s1, s2, s3] (loadCache cacheFile env.now) 0 0
    [Event.listRequest none 10, Event.listRequest (some days) 50,
      Event.listRequest (some 30) 50]
    (by simp [List.nodup_cons, h12, h13, h23])
    (by
      intro x hx
      simp only [List.mem_cons, List.not_mem_nil, or_false] at hx
      rcases hx with h | h | h
      · exact h ▸ h1
      · exact h ▸ h2
      · exact h ▸ h3)
    (by
      intro x hx
      simp only [List.mem_cons, List.not_mem_nil, or_false] at hx
      rcases hx with h | h | h
      · subst h; simp [h12, h13, hd1]
      · subst h; simp [hd2]
      · subst h; simp [h23.symm, hd3])
    (by
      intro x hx
      simp only [List.mem_cons, List.not_mem_nil, or_false] at hx
      rcases hx with h | h | h
      · subst h; simpa [h12, h13] using hw1
      · subst h; simpa using hw2
      · subst h; simpa [h23.symm] using hw3)
  simp only [List.map_cons, List.map_nil] at key
  have hclean : cleanupCache
      (⟨(loadCache cacheFile env.now).processedSHAs ++ [s1, s2, s3],
        (loadCache cacheFile env.now).lastSync,
        (loadCache cacheFile env.now).totalProcessed + 3⟩ : SyncCache) =
      ⟨(loadCache cacheFile env.now).processedSHAs ++ [s1, s2, s3],
        (loadCache cacheFile env.now).lastSync,
        (loadCache cacheFile env.now).totalProcessed + 3⟩ := by
    have hle : ((loadCache cacheFile env.now).processedSHAs ++ [s1, s2, s3]).length ≤
        MAX_CACHE_SIZE := by
      simpa using hlen
    simp [cleanupCache]
    omega
  simp only [syncRecentCommits, List.isEmpty_nil, List.isEmpty_cons, if_true,
    Bool.false_eq_true, if_false, finishSync, List.cons_append, List.nil_append]
  rw [key]
  simp only [hclean]
  simp [h12, h13, h23.symm, List.flatMap]
  constructor <;> rw [hclean]

/-- Witness for C2's amended theorem, projected at concrete inputs: with an
all-success oracle, the run over the three demo commits processes 3. -/
theorem sync_three_fresh_commits_w :
    syncRecentCommits 7 demoEnv none [] [] demoCommits =
      { processedCount := 3
        skippedCount := 0
        events := [Event.listRequest none 10, Event.listRequest (some 7) 50,
          Event.listRequest (some 30) 50,
          Event.detailFetch "aaaa1", Event.filesFetch (jsSubstring "aaaa1" 7),
          Event.rowWrite
            (createNotionCommit demoEnv (commitRecordOf "aaaa1" demoApi demoEnv.now)).1 true,
          Event.delay,
          Event.detailFetch "bbbb2", Event.filesFetch (jsSubstring "bbbb2" 7),
          Event.rowWrite
            (createNotionCommit demoEnv (commitRecordOf "bbbb2" demoApi demoEnv.now)).1 true,
          Event.delay,
          Event.detailFetch "cccc3", Event.filesFetch (jsSubstring "cccc3" 7),
          Event.rowWrite
            (createNotionCommit demoEnv (commitRecordOf "cccc3" demoApi demoEnv.now)).1 true,
          Event.delay]
        savedCache := some
          { processedSHAs := (loadCache none demoEnv.now).processedSHAs ++
              ["aaaa1", "bbbb2", "cccc3"]
            lastSync := demoEnv.now
            totalProcessed := (loadCache none demoEnv.now).totalProcessed + 3 } } :=
  sync_three_fresh_commits demoEnv 7 none [] "aaaa1" "bbbb2" "cccc3" demoApi demoApi demoApi
    (by decide) (by decide) (by decide) (by decide) (by decide) (by decide)
    rfl rfl rfl rfl rfl rfl (by decide)

/-- C9, counterexample: the empty argument string does not parse as an
integer (`parseInt` gives NaN on it), yet the process does not exit with an
error — line 402 treats a falsy first argument as absent and defaults to 7
days, so the run proceeds to sync. -/
theorem main_empty_arg_cx :
    parseIntJS "" = none
    ∧ mainDecision [""] (some "t") (some "g") = MainOutcome.runSync 7 :=
  ⟨rfl, by decide⟩

/-- C9, amended: for every NON-EMPTY first argument (in a run without the
clear-cache flag) on which `parseInt` yields NaN, or whose parsed value
lies outside `[1, 365]`, the process exits with the non-zero-status
invalid-days outcome before any sync work; an absent (or empty, hence
falsy) argument defaults the window to 7 days, with which sync runs when
the tokens are present. -/
theorem main_days_validation :
    (∀ (args : List String) (s : String) (nt gt : Option String),
      args.contains "--clear-cache" = false →
      args.head? = some s → s ≠ "" →
      (parseIntJS s = none ∨ ∃ d, parseIntJS s = some d ∧ (d < 1 ∨ d > 365)) →
      mainDecision args nt gt = MainOutcome.invalidDaysExit)
    ∧ (∀ nt gt : Option String,
        truthyStr nt = true → truthyStr gt = true →
        mainDecision [] nt gt = MainOutcome.runSync 7) := by
  constructor
  · intro args s nt gt hcc hh hne hbad
    have hcc2 : "--clear-cache" ∉ args := by simpa using hcc
    rcases hbad with hn | ⟨d, hd, hrange⟩
    · simp [mainDecision, hcc, hcc2, hh, hne, hn]
    · simp only [mainDecision, hcc, Bool.false_eq_true, if_false, hh, hne, ite_false, hd]
      rw [if_pos hrange]
  · intro nt gt h1 h2
    simp [mainDecision, h1, h2]

/-- Witness for C9's amended theorem: the out-of-range argument 400 exits
with the invalid-days outcome, and no argument runs sync with 7 days. -/
theorem main_days_validation_w :
    mainDecision ["400"] (some "t") (some "g") = MainOutcome.invalidDaysExit
    ∧ mainDecision [] (some "t") (some "g") = MainOutcome.runSync 7 :=
  ⟨main_days_validation.1 ["400"] "400" (some "t") (some "g") (by decide) rfl (by decide)
      (Or.inr ⟨400, by decide, Or.inr (by decide)⟩),
   main_days_validation.2 (some "t") (some "g") rfl rfl⟩

/-- C10, counterexample: for a full 40-character identifier the record the
detail fetcher builds carries only the truncated 7-character form in its
`sha` field (source line 171), not the full identifier. -/
theorem getCommitDetails_truncates_cx :
    (getCommitDetails demoFullSha (some demoApi) demoEnv.now).map CommitData.sha =
      some "0123456"
    ∧ "0123456" ≠ demoFullSha :=
  ⟨rfl, by decide⟩

/-- C10, amended: every Commit Record produced by the detail fetcher
carries exactly the truncated 7-character form of the identifier as its
`sha` field; consequently the identifier available to the row writer (the
row's `GitHub SHA` field) and to the subsequent file-path fetch is the
truncation, not the full identifier.  (The full identifier is used only
for the detail request itself and for the cache entry.) -/
theorem commitRecord_sha_truncation :
    (∀ (sha : String) (a : ApiCommitDetail) (now : String),
      (getCommitDetails sha (some a) now).map CommitData.sha = some (jsSubstring sha 7))
    ∧ (∀ (env : Env) (sha : String) (a : ApiCommitDetail) (rec : CommitData),
        getCommitDetails sha (some a) env.now = some rec →
        rec.sha = jsSubstring sha 7
        ∧ (createNotionCommit env rec).1.githubSHA = jsSubstring sha 7
        ∧ createNotionCommit env rec =
            (buildNotionRow rec (getCommitFiles (env.filePaths (jsSubstring sha 7))),
             env.writeOk (buildNotionRow rec
               (getCommitFiles (env.filePaths (jsSubstring sha 7)))))) := by
  constructor
  · intro sha a now
    rfl
  · intro env sha a rec h
    have hrec : commitRecordOf sha a env.now = rec := Option.some.inj h
    subst hrec
    exact ⟨rfl, rfl, rfl⟩

/-- Witness for C10's amended theorem at the concrete full identifier. -/
theorem commitRecord_sha_truncation_w :
    (commitRecordOf demoFullSha demoApi demoEnv.now).sha = jsSubstring demoFullSha 7
    ∧ (createNotionCommit demoEnv
        (commitRecordOf demoFullSha demoApi demoEnv.now)).1.githubSHA =
          jsSubstring demoFullSha 7 :=
  ⟨(commitRecord_sha_truncation.2 demoEnv demoFullSha demoApi _ rfl).1,
   (commitRecord_sha_truncation.2 demoEnv demoFullSha demoApi _ rfl).2.1⟩

end GhSync
